import Mathlib

/-!
Verification development for the Cupid Hotel ingestion service.

This file gives a shallow embedding of the ingestion pipeline:
the pure field mappers (`internal/app/mappers.go`), the upstream
client's candidate-fallback and retry machinery
(`internal/adapters/cupid/client.go`), and the per-entity ingestion
orchestrator (`internal/app/commands.go`), together with theorems
about the embedded definitions.

Modelling conventions:
* Go `map[string]any` JSON documents become association lists over an
  inductive JSON value type `JVal`; JSON numbers are modelled as exact
  rationals (Go decodes them to float64; double rounding of decoded
  literals is not modelled).
* Go strings are Lean `String`s; `strings.TrimSpace` / `ToLower` are
  modelled for ASCII (the repository only classifies ASCII messages).
* `strconv.ParseFloat` / `ParseInt` are modelled for plain decimal
  forms (optional sign, digits, optional fraction); exponent and
  hexadecimal forms are not modelled.
* Side-effecting collaborators (repository, cache, upstream API) are
  modelled by oracles; the orchestrator and client produce an explicit
  event trace / counters instead of performing I/O.
-/

namespace CupidHotel

/-! ### ASCII string helpers (strings.TrimSpace, ToLower, Contains) -/

def asciiWs (c : Char) : Bool :=
  c = ' ' || c = '\t' || c = '\n' || c = '\r' || c = '\x0b' || c = '\x0c'

def trimChars (cs : List Char) : List Char :=
  ((cs.dropWhile asciiWs).reverse.dropWhile asciiWs).reverse

def goTrim (s : String) : String := String.mk (trimChars s.data)

def asciiLower (s : String) : String := String.mk (s.data.map Char.toLower)

/-- does `hay` start with `needle`? -/
def leadsWith : List Char → List Char → Bool
  | [], _ => true
  | _ :: _, [] => false
  | n :: ns, h :: hs => n = h && leadsWith ns hs

/-- substring containment on character lists, as in Go `strings.Contains`. -/
def containsChars : List Char → List Char → Bool
  | needle, [] => needle.isEmpty
  | needle, c :: t => leadsWith needle (c :: t) || containsChars needle t

def containsSub (hay needle : String) : Bool := containsChars needle.data hay.data

/-- split a path on `'.'`, as in Go `strings.Split(path, ".")`. -/
def splitDotAux : List Char → List Char → List String
  | [], acc => [String.mk acc.reverse]
  | '.' :: t, acc => String.mk acc.reverse :: splitDotAux t []
  | c :: t, acc => splitDotAux t (c :: acc)

def splitDot (s : String) : List String := splitDotAux s.data []

/-- `strings.Join` with a separator. -/
def joinSep (sep : String) : List String → String
  | [] => ""
  | [s] => s
  | s :: t => s ++ sep ++ joinSep sep t

def neStr (s : String) : Bool := s != ""

def natStr (n : Nat) : String := toString n

def intStr (i : Int) : String := toString i

/-! ### Decimal parsing (strconv.ParseInt / ParseFloat, decimal forms) -/

def parseDigits : List Char → Option Nat
  | [] => none
  | cs =>
    if cs.all Char.isDigit then
      some (cs.foldl (fun a c => a * 10 + (c.toNat - 48)) 0)
    else none

/-- `strconv.ParseInt(s, 10, 64)`: optional sign, decimal digits, 64-bit range. -/
def parseIntGo (s : String) : Option Int :=
  let signed : List Char → Option Int
    | cs => (parseDigits cs).map fun n => (n : Int)
  let val : Option Int :=
    match s.data with
    | '+' :: rest => signed rest
    | '-' :: rest => (parseDigits rest).map fun n => -(n : Int)
    | cs => signed cs
  val.bind fun v =>
    if -(2 ^ 63 : Int) ≤ v ∧ v < 2 ^ 63 then some v else none

def fracVal (cs : List Char) : Option ℚ :=
  if cs.all Char.isDigit then
    some ((cs.foldl (fun a c => a * 10 + (c.toNat - 48)) 0 : ℚ) / (10 : ℚ) ^ cs.length)
  else none

/-- `strconv.ParseFloat` on plain decimal forms, yielding an exact rational. -/
def parseFloatGo (s : String) : Option ℚ :=
  let body : List Char → Option ℚ := fun cs =>
    match (String.mk cs).data.splitOn '.' with
    | [w] => (parseDigits w).map fun n => (n : ℚ)
    | [w, f] =>
      if w = [] ∧ f = [] then none
      else if w = [] then fracVal f
      else if f = [] then (parseDigits w).map fun n => (n : ℚ)
      else
        (parseDigits w).bind fun n =>
          (fracVal f).map fun q => (n : ℚ) + q
    | _ => none
  match s.data with
  | '+' :: rest => body rest
  | '-' :: rest => (body rest).map fun q => -q
  | cs => body cs

/-- round to the nearest integer, ties to even (Go's correctly rounded `%f`). -/
def roundHalfEven (q : ℚ) : Int :=
  let f : Int := ⌊q⌋
  let r : ℚ := q - (f : ℚ)
  if r < 1 / 2 then f
  else if 1 / 2 < r then f + 1
  else if f % 2 = 0 then f else f + 1

/-- `fmt.Sprintf("%.3f", x)` for a rational value. -/
def fmt3 (q : ℚ) : String :=
  let n : Int := roundHalfEven (q * 1000)
  let mag : Nat := n.natAbs
  let fs : String := natStr (mag % 1000)
  (if n < 0 then "-" else "") ++ natStr (mag / 1000) ++ "." ++
    String.mk (List.replicate (3 - fs.length) '0') ++ fs

/-! ### SHA-1 over byte lists (crypto/sha1), with 32-bit words as `Nat % 2^32` -/

def w32 (x : Nat) : Nat := x % 4294967296

def rotl (n x : Nat) : Nat := ((x <<< n) % 4294967296) ||| (x >>> (32 - n))

def utf8Char (c : Char) : List Nat :=
  let n := c.toNat
  if n < 0x80 then [n]
  else if n < 0x800 then [0xC0 ||| (n >>> 6), 0x80 ||| (n &&& 0x3F)]
  else if n < 0x10000 then
    [0xE0 ||| (n >>> 12), 0x80 ||| ((n >>> 6) &&& 0x3F), 0x80 ||| (n &&& 0x3F)]
  else
    [0xF0 ||| (n >>> 18), 0x80 ||| ((n >>> 12) &&& 0x3F),
     0x80 ||| ((n >>> 6) &&& 0x3F), 0x80 ||| (n &&& 0x3F)]

def utf8Bytes (s : String) : List Nat :=
  s.data.foldr (fun c acc => utf8Char c ++ acc) []

def be64 (n : Nat) : List Nat :=
  [(n >>> 56) % 256, (n >>> 48) % 256, (n >>> 40) % 256, (n >>> 32) % 256,
   (n >>> 24) % 256, (n >>> 16) % 256, (n >>> 8) % 256, n % 256]

def sha1Pad (msg : List Nat) : List Nat :=
  msg ++ [0x80] ++ List.replicate ((64 - ((msg.length + 9) % 64)) % 64) 0 ++
    be64 (8 * msg.length)

def chunksOf64 (l : List Nat) : List (List Nat) :=
  if h : l = [] then [] else l.take 64 :: chunksOf64 (l.drop 64)
termination_by l.length
decreasing_by
  simp only [List.length_drop]
  have : 0 < l.length := List.length_pos.mpr h
  omega

def toWordsBE : List Nat → List Nat
  | b0 :: b1 :: b2 :: b3 :: rest =>
    (((b0 * 256 + b1) * 256 + b2) * 256 + b3) :: toWordsBE rest
  | _ => []

def shaExtend (ws : List Nat) : List Nat :=
  if _h : ws.length < 80 then
    shaExtend (ws ++ [rotl 1
      ((ws.getD (ws.length - 3) 0) ^^^ (ws.getD (ws.length - 8) 0) ^^^
       (ws.getD (ws.length - 14) 0) ^^^ (ws.getD (ws.length - 16) 0))])
  else ws
termination_by 80 - ws.length
decreasing_by
  simp only [List.length_append, List.length_singleton]
  omega

def shaF (t b c d : Nat) : Nat :=
  if t < 20 then (b &&& c) ||| ((b ^^^ 4294967295) &&& d)
  else if t < 40 then b ^^^ c ^^^ d
  else if t < 60 then (b &&& c) ||| (b &&& d) ||| (c &&& d)
  else b ^^^ c ^^^ d

def shaK (t : Nat) : Nat :=
  if t < 20 then 0x5A827999
  else if t < 40 then 0x6ED9EBA1
  else if t < 60 then 0x8F1BBCDC
  else 0xCA62C1D6

def sha1Round (w : List Nat) (st : Nat × Nat × Nat × Nat × Nat) (t : Nat) :
    Nat × Nat × Nat × Nat × Nat :=
  match st with
  | (a, b, c, d, e) =>
    (w32 (rotl 5 a + shaF t b c d + e + shaK t + w.getD t 0), a, rotl 30 b, c, d)

def sha1Block (hs : Nat × Nat × Nat × Nat × Nat) (block : List Nat) :
    Nat × Nat × Nat × Nat × Nat :=
  let w := shaExtend (toWordsBE block)
  match hs, (List.range 80).foldl (sha1Round w) hs with
  | (h0, h1, h2, h3, h4), (a, b, c, d, e) =>
    (w32 (h0 + a), w32 (h1 + b), w32 (h2 + c), w32 (h3 + d), w32 (h4 + e))

def sha1Words (msg : List Nat) : List Nat :=
  match (chunksOf64 (sha1Pad msg)).foldl sha1Block
      (0x67452301, 0xEFCDAB89, 0x98BADCFE, 0x10325476, 0xC3D2E1F0) with
  | (h0, h1, h2, h3, h4) => [h0, h1, h2, h3, h4]

def hexWord (n : Nat) : String :=
  let ds := Nat.toDigits 16 n
  String.mk (List.replicate (8 - ds.length) '0' ++ ds)

/-- `hex.EncodeToString(sha1.Sum(msg)[:])`: lowercase hex of the digest. -/
def sha1Hex (msg : List Nat) : String := joinSep "" ((sha1Words msg).map hexWord)

/-! ### JSON documents (decoded `map[string]any`) and nested lookup -/

inductive JVal where
  | null
  | bool (b : Bool)
  | num (q : ℚ)
  | str (s : String)
  | arr (xs : List JVal)
  | obj (fields : List (String × JVal))

/-- a decoded top-level JSON object; keys are unique in documents
produced by Go's JSON decoder. -/
abbrev Doc := List (String × JVal)

def jlook : List (String × JVal) → String → Option JVal
  | [], _ => none
  | (k, v) :: t, key => if k = key then some v else jlook t key

def lookupSeg : Option JVal → String → Option JVal
  | some (.obj fs), part => jlook fs part
  | _, _ => none

/-- `lookupAny`: safe nested lookup with dot paths on maps. -/
def lookupAny (m : Doc) (path : String) : Option JVal :=
  (splitDot path).foldl lookupSeg (some (.obj m))

/-- `lookupStr` returns the string at `path` or `""`. -/
def lookupStr (m : Doc) (path : String) : String :=
  match lookupAny m path with
  | some (.str s) => s
  | _ => ""

/-- first path in the list yielding a non-empty string. -/
def firstNonEmptyIn (m : Doc) : List String → Option String
  | [] => none
  | p :: t => if lookupStr m p ≠ "" then some (lookupStr m p) else firstNonEmptyIn m t

/-- `firstNonEmptyAlias`: first non-empty string for a named alias set. -/
def firstNonEmptyAlias (m : Doc) (aliases : String → List String) (key : String) :
    Option String :=
  firstNonEmptyIn m (aliases key)

def deref : Option String → String
  | none => ""
  | some s => s

def ptrStr (s : String) : Option String := if s = "" then none else some s

/-- `joinNonEmpty`: trim each part, drop empties, join with a space. -/
def joinNonEmpty (parts : List String) : String :=
  joinSep " " ((parts.map goTrim).filter neStr)

/-- `getFloatFlexible`: number from several paths (number / string like "8,0"). -/
def getFloatFlexible (m : Doc) : List String → Option ℚ
  | [] => none
  | k :: t =>
    match lookupAny m k with
    | some (.num q) => some q
    | some (.str v) =>
      let s := goTrim (String.mk (v.data.map fun c => if c = ',' then '.' else c))
      if s = "" then getFloatFlexible m t
      else
        match parseFloatGo s with
        | some q => some q
        | none => getFloatFlexible m t
    | _ => getFloatFlexible m t

/-- `firstInt64Flexible`: int64 from several paths (number / numeric string). -/
def firstInt64Flexible (m : Doc) : List String → Option Int
  | [] => none
  | k :: t =>
    match lookupAny m k with
    | some (.num q) => some (q.num.tdiv q.den)
    | some (.str v) =>
      let s := goTrim v
      if s = "" then firstInt64Flexible m t
      else
        match parseIntGo s with
        | some n => some n
        | none => firstInt64Flexible m t
    | _ => firstInt64Flexible m t

/-- a non-empty string held under `key` of a decoded object, if any. -/
def objPick (fs : List (String × JVal)) (key : String) : Option String :=
  match jlook fs key with
  | some (.str u) => if u ≠ "" then some u else none
  | _ => none

/-- element extraction for `firstSliceStrings`: strings, or objects with
a non-empty `url`/`src`/`name` string field (checked in that order). -/
def extractStrs : List JVal → List String
  | [] => []
  | .str s :: rest => if s ≠ "" then s :: extractStrs rest else extractStrs rest
  | .obj fs :: rest =>
    match (objPick fs "url").orElse (fun _ => (objPick fs "src").orElse
        (fun _ => objPick fs "name")) with
    | some u => u :: extractStrs rest
    | none => extractStrs rest
  | _ :: rest => extractStrs rest

/-- `firstSliceStrings`: first path holding an array with extractable entries. -/
def firstSliceStrings (m : Doc) : List String → List String
  | [] => []
  | k :: t =>
    match lookupAny m k with
    | some (.arr raw) =>
      let out := extractStrs raw
      if out ≠ [] then out else firstSliceStrings m t
    | _ => firstSliceStrings m t

def headSeg (p : String) : String := (splitDot p).headD ""

/-- `topLevelKnownFromAliases`: top-level key segments reachable from an
alias registry, used to exclude known keys from the extras bag. -/
def topLevelKnown (aliases : String → List String) (keys : List String) : List String :=
  (keys.flatMap aliases).map headSeg

/-! ### Alias registries (single source of truth) -/

def reviewAliases : String → List String
  | "author" => ["author", "name", "userName", "reviewer", "reviewer.name"]
  | "author_first" => ["first_name", "firstname", "user.first_name", "user.firstName"]
  | "author_last" => ["last_name", "lastname", "user.last_name", "user.lastName"]
  | "title" => ["title", "review_title", "headline", "summary"]
  | "text" => ["text", "review_text", "review", "comment", "content", "body", "message"]
  | "lang" => ["lang", "language", "language_code", "languageCode", "locale"]
  | "source" => ["source", "platform", "provider", "site", "origin"]
  | "source_id" => ["id", "review_id", "reviewId"]
  | "rating" =>
    ["rating", "rate", "score", "rating.value", "scores.overall", "overall_score",
     "average_score"]
  | _ => []

def i18nAliases : String → List String
  | "name" => ["name", "hotel_name", "translations.name"]
  | "description" =>
    ["description", "markdown_description", "translations.description",
     "description_long"]
  | "policies" => ["policies", "important_info", "translations.policies"]
  | "address" =>
    ["address", "address.line", "address_raw", "full_address", "address1",
     "address_line1", "location.address", "street", "street_address"]
  | _ => []

/-! ### Domain records -/

structure Hotel where
  id : Int
  brandID : Option Int
  stars : Option Int
  lat : Option ℚ
  lon : Option ℚ
  country : Option String
  city : Option String
  addressRaw : Option String
  amenities : List String
  images : List String
  /-- the full upstream payload, retained verbatim (`RawJSON`). -/
  rawJSON : Doc

structure Review where
  propertyID : Int
  sourceID : Option String
  author : Option String
  rating : Option ℚ
  lang : Option String
  title : Option String
  text : Option String
  /-- structured pros/cons aspect bag (`AspectsJSON`); `none` when both
  lists are empty, in which case no JSON is marshalled. -/
  aspects : Option (List String × List String)
  source : Option String
  rawJSON : Doc

structure HotelI18n where
  propertyID : Int
  lang : String
  name : Option String
  description : Option String
  policies : Option String
  address : Option String
  /-- the extras bag (`ExtrasJSON`), kept in document order; the
  canonicalisation done by `json.Marshal` of a Go map is not modelled. -/
  extras : List (String × JVal)

/-! ### Property mapper (`mapProperty`) -/

def propAddrSingleAliases : List String :=
  ["address_raw", "address", "address.line", "full_address", "location.address",
   "formatted_address"]

/-- the fixed component list the address fallback concatenates, in source
order: `address.`-prefixed components first, then root-level ones. -/
def addressComponents (p : Doc) : List String :=
  [lookupStr p "address.addressLine1", lookupStr p "address.addressLine2",
   lookupStr p "address.street", lookupStr p "address.district",
   lookupStr p "address.city", lookupStr p "address.state",
   lookupStr p "address.postcode", lookupStr p "address.zip",
   lookupStr p "address.country",
   lookupStr p "street", lookupStr p "city", lookupStr p "postcode",
   lookupStr p "zip", lookupStr p "country"]

/-- compose an address from components: trim, drop empties, join with ", ";
absent when nothing is found. -/
def composeAddress (p : Doc) : Option String :=
  let nonEmpty := ((addressComponents p).map goTrim).filter neStr
  if nonEmpty = [] then none else some (joinSep ", " nonEmpty)

def mapProperty (p : Doc) : Hotel where
  id := (firstInt64Flexible p ["hotel_id", "cupid_id", "id"]).getD 0
  brandID := firstInt64Flexible p ["chain_id", "brand_id"]
  stars := (getFloatFlexible p ["stars", "rating.stars", "rating"]).map
    (fun q => q.num.tdiv q.den)
  lat := getFloatFlexible p ["latitude", "lat", "location.lat"]
  lon := getFloatFlexible p ["longitude", "lon", "lng", "location.lon", "location.lng"]
  country := firstNonEmptyIn p ["address.country", "country", "countryCode", "country_code"]
  city := firstNonEmptyIn p ["address.city", "city", "locality", "town"]
  addressRaw :=
    match firstNonEmptyIn p propAddrSingleAliases with
    | some s => some s
    | none => composeAddress p
  amenities := firstSliceStrings p ["facilities", "amenities"]
  images := firstSliceStrings p ["photos", "images"]
  rawJSON := p

/-! ### Review mapper (`mapReviews`) -/

def reviewAuthor (r : Doc) : Option String :=
  match firstNonEmptyAlias r reviewAliases "author" with
  | some s => some s
  | none =>
    let first := firstNonEmptyAlias r reviewAliases "author_first"
    let last := firstNonEmptyAlias r reviewAliases "author_last"
    if first ≠ none ∨ last ≠ none then
      let full := goTrim (joinNonEmpty [deref first, deref last])
      if full ≠ "" then some full else none
    else none

def reviewText (r : Doc) : Option String :=
  match firstNonEmptyAlias r reviewAliases "text" with
  | some s => some s
  | none =>
    let pros := lookupStr r "pros"
    let cons := lookupStr r "cons"
    if pros ≠ "" ∨ cons ≠ "" then
      let joined := goTrim (joinSep "\n" [goTrim ("Pros: " ++ pros), goTrim ("Cons: " ++ cons)])
      if joined ≠ "" then some joined else none
    else none

def ratingStr : Option ℚ → String
  | some q => fmt3 q
  | none => ""

/-- the pipe-joined signature hashed when no explicit review id resolves. -/
def reviewSig (author title text lang : Option String) (rating : Option ℚ) : String :=
  joinSep "|" [deref author, deref title, deref text, deref lang, ratingStr rating]

def reviewAspects (r : Doc) : Option (List String × List String) :=
  let prosArr0 := firstSliceStrings r ["pros", "review.pros", "positives"]
  let consArr0 := firstSliceStrings r ["cons", "review.cons", "negatives"]
  let prosArr :=
    if prosArr0 = [] then
      if goTrim (lookupStr r "pros") ≠ "" then [goTrim (lookupStr r "pros")]
      else if goTrim (lookupStr r "positives") ≠ "" then [goTrim (lookupStr r "positives")]
      else []
    else prosArr0
  let consArr :=
    if consArr0 = [] then
      if goTrim (lookupStr r "cons") ≠ "" then [goTrim (lookupStr r "cons")]
      else if goTrim (lookupStr r "negatives") ≠ "" then [goTrim (lookupStr r "negatives")]
      else []
    else consArr0
  if prosArr ≠ [] ∨ consArr ≠ [] then some (prosArr, consArr) else none

def mapOneReview (propertyID : Int) (r : Doc) : Review :=
  let author := reviewAuthor r
  let title := firstNonEmptyAlias r reviewAliases "title"
  let text := reviewText r
  let lang := firstNonEmptyAlias r reviewAliases "lang"
  let rating := getFloatFlexible r (reviewAliases "rating")
  let source := firstNonEmptyAlias r reviewAliases "source"
  let sourceID :=
    match firstNonEmptyAlias r reviewAliases "source_id" with
    | some s => some s
    | none => some (sha1Hex (utf8Bytes (reviewSig author title text lang rating)))
  { propertyID := propertyID
    sourceID := sourceID
    author := author
    rating := rating
    lang := lang
    title := title
    text := text
    aspects := reviewAspects r
    source := source
    rawJSON := r }

def mapReviews (propertyID : Int) (rs : List Doc) : List Review :=
  rs.map (mapOneReview propertyID)

/-! ### i18n mapper (`mapI18n`) -/

def mapI18n (propertyID : Int) (lang : String) (payload : Doc) : HotelI18n :=
  let known := topLevelKnown i18nAliases ["name", "description", "policies", "address"]
  { propertyID := propertyID
    lang := lang
    name := ptrStr (deref (firstNonEmptyAlias payload i18nAliases "name"))
    description := ptrStr (deref (firstNonEmptyAlias payload i18nAliases "description"))
    policies := ptrStr (deref (firstNonEmptyAlias payload i18nAliases "policies"))
    address := ptrStr (deref (firstNonEmptyAlias payload i18nAliases "address"))
    extras := payload.filter fun kv => ¬ known.contains kv.1 }

/-! ### Error values

A Go `error` is modelled by what the repository's code observes of it:
the result of `errors.Is(err, domain.ErrNotFound)`, the result of
`errors.Is(err, cupid.ErrNotFound)`, and its message.  `errors.New`
creates fresh identities, so the client's sentinels answer `false` to
`errors.Is(·, domain.ErrNotFound)`. -/

structure ErrVal where
  nfDomain : Bool
  nfCupid : Bool
  msg : String
deriving DecidableEq, Repr

/-- `cupid.ErrNotFound = errors.New("cupid: not found")`. -/
def cupidNotFoundE : ErrVal := ⟨false, true, "cupid: not found"⟩

/-- `cupid.ErrUnauthorized = errors.New("cupid: unauthorized")`. -/
def cupidUnauthorizedE : ErrVal := ⟨false, false, "cupid: unauthorized"⟩

/-- `cupid.ErrForbidden = errors.New("cupid: forbidden")`. -/
def cupidForbiddenE : ErrVal := ⟨false, false, "cupid: forbidden"⟩

/-- a plain error value carrying only a message. -/
def plainErr (msg : String) : ErrVal := ⟨false, false, msg⟩

/-! ### Upstream client: candidate fallback (`Client.getFirst`) -/

/-- the loop of `getFirst` over per-candidate outcomes of `get`, carrying
the last not-found error seen (`last`). -/
def getFirstLoop {α : Type} : List (Except ErrVal α) → Option ErrVal → Except ErrVal α
  | [], some e => .error e
  | [], none => .error (plainErr "no candidate URL succeeded")
  | .ok v :: _, _ => .ok v
  | .error e :: rest, _last =>
    if e.nfCupid then getFirstLoop rest (some e) else .error e

def getFirst {α : Type} (results : List (Except ErrVal α)) : Except ErrVal α :=
  getFirstLoop results none

/-! ### Upstream client: single-URL retry loop (`Client.get`)

What the loop observes of one attempt is either a transport failure
(together with the value of `ctx.Err()` at the subsequent check) or an
HTTP status with, for 2xx, the JSON decode result, and for the default
branch the diagnostic body.  Backoff sleeps are modelled as completing
(an execution in which the context does not fire mid-sleep); attempt
durations and `Retry-After` amounts have no observable effect here. -/

inductive AttemptRes (α : Type) where
  | netErr (msg : String) (ctxErr : Option ErrVal)
  | status (code : Nat) (decoded : Except ErrVal α) (body : String)

def retryableCode (c : Nat) : Bool :=
  c == 429 || c == 500 || c == 502 || c == 503 || c == 504

/-- `fmt.Errorf("remote %d", code)`. -/
def remoteErr (c : Nat) : ErrVal := plainErr ("remote " ++ natStr c)

/-- `fmt.Errorf("bad status %d: %s", code, snippet)`. -/
def badStatusErr (c : Nat) (body : String) : ErrVal :=
  plainErr ("bad status " ++ natStr c ++ ": " ++ goTrim body)

/-- does this attempt outcome cause a retry (when retries remain)? -/
def isRetryAttempt {α : Type} : AttemptRes α → Bool
  | .netErr _ ctxErr => ctxErr.isNone
  | .status code _ _ => retryableCode code

/-- the error recorded in `lastErr` for a retried attempt. -/
def errOfRetry {α : Type} : AttemptRes α → ErrVal
  | .netErr msg _ => plainErr msg
  | .status code _ _ => remoteErr code

/-- what `get` returns when this attempt is its last one processed. -/
def finalOutcome {α : Type} : AttemptRes α → Except ErrVal (Option α)
  | .netErr msg ctxErr =>
    match ctxErr with
    | some ce => .error ce
    | none => .error (plainErr msg)
  | .status code dec body =>
    if code = 200 ∨ code = 201 ∨ code = 202 then dec.map some
    else if code = 204 then .ok none
    else if code = 404 then .error cupidNotFoundE
    else if code = 401 then .error cupidUnauthorizedE
    else if code = 403 then .error cupidForbiddenE
    else if retryableCode code then .error (remoteErr code)
    else .error (badStatusErr code body)

/-- the `for i := 0; i < 4; i++` loop of `get`, over the remaining attempt
indices; returns the number of requests issued and the result.  A `2xx`
success carries `some` of the decoded value, a `204` carries `none`
(the output is left untouched).  The `return lastErr` after the loop is
unreachable (every index-3 branch returns); an empty index list maps a
`nil` `lastErr` to an empty-message error. -/
def getLoop {α : Type} (att : Nat → AttemptRes α) :
    List Nat → Option ErrVal → Nat × Except ErrVal (Option α)
  | [], last => (0, .error ((last.getD (plainErr ""))))
  | i :: rest, _last =>
    match att i with
    | .netErr msg ctxErr =>
      match ctxErr with
      | some ce => (1, .error ce)
      | none =>
        if i < 3 then
          ((getLoop att rest (some (plainErr msg))).1 + 1,
           (getLoop att rest (some (plainErr msg))).2)
        else (1, .error (plainErr msg))
    | .status code dec body =>
      if code = 200 ∨ code = 201 ∨ code = 202 then (1, dec.map some)
      else if code = 204 then (1, .ok none)
      else if code = 404 then (1, .error cupidNotFoundE)
      else if code = 401 then (1, .error cupidUnauthorizedE)
      else if code = 403 then (1, .error cupidForbiddenE)
      else if retryableCode code then
        if i < 3 then
          ((getLoop att rest (some (remoteErr code))).1 + 1,
           (getLoop att rest (some (remoteErr code))).2)
        else (1, .error (remoteErr code))
      else (1, .error (badStatusErr code body))

/-- the collaborators one `get` call observes: the outcome of the single
`rl.Wait(ctx)` at the head of `get`, and the per-attempt outcomes. -/
structure ClientWorld (α : Type) where
  limiter : Except ErrVal Unit
  att : Nat → AttemptRes α

structure GetStats (α : Type) where
  tokenWaits : Nat
  requests : Nat
  result : Except ErrVal (Option α)

/-- `Client.get`: one rate-limiter wait, then up to 4 attempts. -/
def clientGet {α : Type} (w : ClientWorld α) : GetStats α :=
  match w.limiter with
  | .error e => { tokenWaits := 1, requests := 0, result := .error e }
  | .ok _ =>
    { tokenWaits := 1
      requests := (getLoop w.att [0, 1, 2, 3] none).1
      result := (getLoop w.att [0, 1, 2, 3] none).2 }

/-! ### Ingestion orchestrator (`IngestionService.IngestHotel`)

The repository, cache and upstream client are oracles in a `World`;
running `IngestHotel` yields the ordered trace of repository writes and
cache deletions it performs, plus its returned error (`none` = `nil`). -/

inductive Event where
  | logMiss (id : Int) (status : Nat) (reason : String)
  | cacheDel (key : String)
  | upsertProperty (h : Hotel)
  | upsertReviews (rs : List Review)
  | upsertI18n (i : HotelI18n)

structure World where
  getProperty : Except ErrVal Doc
  getReviews : Except ErrVal (List Doc)
  getTranslation : String → Except ErrVal Doc
  upsertPropertyErr : Option ErrVal
  upsertReviewsErr : Option ErrVal
  upsertI18nErr : String → Option ErrVal
  /-- whether `s.cache != nil`. -/
  hasCache : Bool

/-- classification used throughout `IngestHotel` for "not found". -/
def classNotFound (e : ErrVal) : Bool :=
  e.nfDomain || containsSub (asciiLower e.msg) "not found"

/-- classification used throughout `IngestHotel` for 401/403 outcomes. -/
def classDenied (e : ErrVal) : Bool :=
  containsSub (asciiLower e.msg) "403" || containsSub (asciiLower e.msg) "forbidden" ||
  containsSub (asciiLower e.msg) "401" || containsSub (asciiLower e.msg) "unauthorized"

def hotelKey (id : Int) (lang : String) : String :=
  "hotel:" ++ intStr id ++ ":" ++ asciiLower lang

def reviewsKey (id : Int) (lim : Nat) : String :=
  "reviews:" ++ intStr id ++ ":" ++ natStr lim ++ ":-created_at"

def invalidateHotelAllLangs (id : Int) : List Event :=
  [.cacheDel (hotelKey id "en"), .cacheDel (hotelKey id "fr"), .cacheDel (hotelKey id "es")]

def invalidateReviews (id : Int) : List Event :=
  [.cacheDel (reviewsKey id 50), .cacheDel (reviewsKey id 100),
   .cacheDel (reviewsKey id 200)]

/-- cache operations happen only when a cache is configured. -/
def cacheEvents (w : World) (evs : List Event) : List Event :=
  if w.hasCache then evs else []

/-- step 2 of `IngestHotel`: reviews (best-effort); a `some` error aborts
the entity's ingestion. -/
def reviewsStep (w : World) (id : Int) : List Event × Option ErrVal :=
  match w.getReviews with
  | .error e =>
    if classNotFound e then
      ([.logMiss id 404 "reviews"] ++ cacheEvents w (invalidateReviews id), none)
    else if classDenied e then
      ([.logMiss id 403 "reviews"] ++ cacheEvents w (invalidateReviews id), none)
    else ([], some e)
  | .ok revs =>
    if revs.length > 0 then
      match w.upsertReviewsErr with
      | some e =>
        ([.upsertReviews (mapReviews id revs)],
         some { e with msg := "upsert reviews failed for " ++ intStr id ++ ": " ++ e.msg })
      | none =>
        ([.upsertReviews (mapReviews id revs)] ++ cacheEvents w (invalidateReviews id),
         none)
    else (cacheEvents w (invalidateReviews id), none)

/-- one language of step 3 of `IngestHotel`. -/
def i18nLangStep (w : World) (id : Int) (lang : String) : List Event × Option ErrVal :=
  match w.getTranslation lang with
  | .error e =>
    if classNotFound e then
      ([.logMiss id 404 ("i18n:" ++ lang)] ++ cacheEvents w [.cacheDel (hotelKey id lang)],
       none)
    else if classDenied e then
      ([.logMiss id 403 ("i18n:" ++ lang)] ++ cacheEvents w [.cacheDel (hotelKey id lang)],
       none)
    else ([], some e)
  | .ok tr =>
    match w.upsertI18nErr lang with
    | some e => ([.upsertI18n (mapI18n id lang tr)], some e)
    | none =>
      ([.upsertI18n (mapI18n id lang tr)] ++ cacheEvents w [.cacheDel (hotelKey id lang)],
       none)

/-- the `for _, lang := range []string{"en","fr","es"}` loop. -/
def i18nLoop (w : World) (id : Int) : List String → List Event × Option ErrVal
  | [] => ([], none)
  | l :: ls =>
    match (i18nLangStep w id l).2 with
    | some e => ((i18nLangStep w id l).1, some e)
    | none =>
      ((i18nLangStep w id l).1 ++ (i18nLoop w id ls).1, (i18nLoop w id ls).2)

/-- `IngestionService.IngestHotel` as a trace-producing function; the
`reviewCount` argument only parameterises the upstream call, whose
outcome the `World` oracle already fixes. -/
def IngestHotel (w : World) (id : Int) (_reviewCount : Nat) :
    List Event × Option ErrVal :=
  match w.getProperty with
  | .error e =>
    if classNotFound e then
      ([.logMiss id 404 "not found"] ++
         cacheEvents w (invalidateHotelAllLangs id ++ invalidateReviews id), none)
    else if classDenied e then
      ([.logMiss id 403 "inactive"] ++
         cacheEvents w (invalidateHotelAllLangs id ++ invalidateReviews id), none)
    else ([], some e)
  | .ok p =>
    match w.upsertPropertyErr with
    | some e => ([.upsertProperty (mapProperty p)], some e)
    | none =>
      let pre := [Event.upsertProperty (mapProperty p)] ++
        cacheEvents w (invalidateHotelAllLangs id)
      match (reviewsStep w id).2 with
      | some e => (pre ++ (reviewsStep w id).1, some e)
      | none =>
        (pre ++ (reviewsStep w id).1 ++ (i18nLoop w id ["en", "fr", "es"]).1,
         (i18nLoop w id ["en", "fr", "es"]).2)

/-! ### Theorems about the orchestrator -/

/-- C1: when the entity fetch returns a not-found outcome, `IngestHotel`
records a miss with status 404 and reason "not found", deletes the entity
cache keys for all supported languages and the default review-listing key
variants, performs no property, localized-fields, or review upserts for
that entity, and returns without error. -/
theorem C1_notFound_short_circuit (w : World) (id : Int) (rc : Nat) (e : ErrVal)
    (hp : w.getProperty = .error e) (hnf : classNotFound e = true)
    (hc : w.hasCache = true) :
    IngestHotel w id rc =
      ([.logMiss id 404 "not found",
        .cacheDel (hotelKey id "en"), .cacheDel (hotelKey id "fr"),
        .cacheDel (hotelKey id "es"), .cacheDel (reviewsKey id 50),
        .cacheDel (reviewsKey id 100), .cacheDel (reviewsKey id 200)], none) ∧
    ∀ ev ∈ (IngestHotel w id rc).1,
      (∀ h, ev ≠ .upsertProperty h) ∧ (∀ rs, ev ≠ .upsertReviews rs) ∧
      (∀ i, ev ≠ .upsertI18n i) := by
  have h1 : IngestHotel w id rc =
      ([.logMiss id 404 "not found",
        .cacheDel (hotelKey id "en"), .cacheDel (hotelKey id "fr"),
        .cacheDel (hotelKey id "es"), .cacheDel (reviewsKey id 50),
        .cacheDel (reviewsKey id 100), .cacheDel (reviewsKey id 200)], none) := by
    simp [IngestHotel, hp, hnf, cacheEvents, hc, invalidateHotelAllLangs,
      invalidateReviews]
  refine ⟨h1, ?_⟩
  rw [h1]
  intro ev hev
  simp only [List.mem_cons, List.not_mem_nil, or_false] at hev
  rcases hev with rfl | rfl | rfl | rfl | rfl | rfl | rfl <;>
    exact ⟨fun _ => by simp, fun _ => by simp, fun _ => by simp⟩

def wC1 : World :=
  { getProperty := .error cupidNotFoundE
    getReviews := .ok []
    getTranslation := fun _ => .ok []
    upsertPropertyErr := none
    upsertReviewsErr := none
    upsertI18nErr := fun _ => none
    hasCache := true }

/-- concrete instantiation of `C1_notFound_short_circuit`. -/
theorem C1_notFound_short_circuit_witness :
    IngestHotel wC1 7 3 =
      ([.logMiss 7 404 "not found",
        .cacheDel (hotelKey 7 "en"), .cacheDel (hotelKey 7 "fr"),
        .cacheDel (hotelKey 7 "es"), .cacheDel (reviewsKey 7 50),
        .cacheDel (reviewsKey 7 100), .cacheDel (reviewsKey 7 200)], none) ∧
    ∀ ev ∈ (IngestHotel wC1 7 3).1,
      (∀ h, ev ≠ .upsertProperty h) ∧ (∀ rs, ev ≠ .upsertReviews rs) ∧
      (∀ i, ev ≠ .upsertI18n i) :=
  C1_notFound_short_circuit wC1 7 3 cupidNotFoundE rfl (by decide) rfl

/-- C8: after a successful entity fetch and upsert, the trace starts with
the entity upsert followed immediately by cache deletions for all three
supported languages; in particular the upsert precedes every cache
invalidation and every localized-fields or review upsert. -/
theorem C8_upsert_then_invalidate_all_langs (w : World) (id : Int) (rc : Nat)
    (p : Doc) (hp : w.getProperty = .ok p) (hu : w.upsertPropertyErr = none)
    (hc : w.hasCache = true) :
    ∃ rest, (IngestHotel w id rc).1 =
      Event.upsertProperty (mapProperty p) :: Event.cacheDel (hotelKey id "en") ::
      Event.cacheDel (hotelKey id "fr") :: Event.cacheDel (hotelKey id "es") :: rest := by
  cases hr : (reviewsStep w id).2 with
  | some e =>
    exact ⟨(reviewsStep w id).1, by
      simp [IngestHotel, hp, hu, hr, cacheEvents, hc, invalidateHotelAllLangs]⟩
  | none =>
    exact ⟨(reviewsStep w id).1 ++ (i18nLoop w id ["en", "fr", "es"]).1, by
      simp [IngestHotel, hp, hu, hr, cacheEvents, hc, invalidateHotelAllLangs]⟩

def wC8 : World :=
  { getProperty := .ok [("hotel_id", .num 5)]
    getReviews := .ok []
    getTranslation := fun _ => .error cupidNotFoundE
    upsertPropertyErr := none
    upsertReviewsErr := none
    upsertI18nErr := fun _ => none
    hasCache := true }

/-- concrete instantiation of `C8_upsert_then_invalidate_all_langs`. -/
theorem C8_upsert_then_invalidate_all_langs_witness :
    ∃ rest, (IngestHotel wC8 5 2).1 =
      Event.upsertProperty (mapProperty [("hotel_id", .num 5)]) ::
      Event.cacheDel (hotelKey 5 "en") :: Event.cacheDel (hotelKey 5 "fr") ::
      Event.cacheDel (hotelKey 5 "es") :: rest :=
  C8_upsert_then_invalidate_all_langs wC8 5 2 [("hotel_id", .num 5)] rfl rfl rfl

/-- C9: fetch errors are classified by substring matching on the lowercased
message: a message containing "not found" is a not-found miss and a message
containing "401"/"403"/"unauthorized"/"forbidden" is an access-denied miss,
swallowed for the entity step and continued past for reviews — even for
errors that are not the typed sentinels (`nfDomain = false`); the client's
own sentinel (message "cupid: not found") is not `domain.ErrNotFound` and
is recognized only through the substring match. -/
theorem C9_substring_classification :
    (∀ (w : World) (id : Int) (rc : Nat) (e : ErrVal),
      w.getProperty = .error e → e.nfDomain = false →
      containsSub (asciiLower e.msg) "not found" = true → w.hasCache = true →
      IngestHotel w id rc =
        ([.logMiss id 404 "not found",
          .cacheDel (hotelKey id "en"), .cacheDel (hotelKey id "fr"),
          .cacheDel (hotelKey id "es"), .cacheDel (reviewsKey id 50),
          .cacheDel (reviewsKey id 100), .cacheDel (reviewsKey id 200)], none)) ∧
    (∀ (w : World) (id : Int) (rc : Nat) (e : ErrVal),
      w.getProperty = .error e → e.nfDomain = false →
      containsSub (asciiLower e.msg) "not found" = false →
      (containsSub (asciiLower e.msg) "401" = true ∨
       containsSub (asciiLower e.msg) "403" = true ∨
       containsSub (asciiLower e.msg) "unauthorized" = true ∨
       containsSub (asciiLower e.msg) "forbidden" = true) → w.hasCache = true →
      IngestHotel w id rc =
        ([.logMiss id 403 "inactive",
          .cacheDel (hotelKey id "en"), .cacheDel (hotelKey id "fr"),
          .cacheDel (hotelKey id "es"), .cacheDel (reviewsKey id 50),
          .cacheDel (reviewsKey id 100), .cacheDel (reviewsKey id 200)], none)) ∧
    (cupidNotFoundE.nfDomain = false ∧ cupidNotFoundE.msg = "cupid: not found" ∧
      classNotFound cupidNotFoundE = true ∧
      classNotFound cupidNotFoundE =
        containsSub (asciiLower cupidNotFoundE.msg) "not found") ∧
    (∀ (w : World) (id : Int) (rc : Nat) (e : ErrVal) (p : Doc),
      w.getProperty = .ok p → w.upsertPropertyErr = none →
      w.getReviews = .error e → e.nfDomain = false →
      containsSub (asciiLower e.msg) "not found" = false → classDenied e = true →
      IngestHotel w id rc =
        ([Event.upsertProperty (mapProperty p)] ++
          cacheEvents w (invalidateHotelAllLangs id) ++
          ([.logMiss id 403 "reviews"] ++ cacheEvents w (invalidateReviews id)) ++
          (i18nLoop w id ["en", "fr", "es"]).1,
         (i18nLoop w id ["en", "fr", "es"]).2)) := by
  refine ⟨?_, ?_, ?_, ?_⟩
  · intro w id rc e hp hd hsub hc
    have hnf : classNotFound e = true := by simp [classNotFound, hsub]
    simp [IngestHotel, hp, hnf, cacheEvents, hc, invalidateHotelAllLangs,
      invalidateReviews]
  · intro w id rc e hp hd hnfsub hden hc
    have hnf : classNotFound e = false := by simp [classNotFound, hnfsub, hd]
    have hdc : classDenied e = true := by
      rcases hden with h | h | h | h <;> simp [classDenied, h]
    simp [IngestHotel, hp, hnf, hdc, cacheEvents, hc, invalidateHotelAllLangs,
      invalidateReviews]
  · exact ⟨rfl, rfl, by decide, by decide⟩
  · intro w id rc e p hp hu hr hd hnfsub hden
    have hnf : classNotFound e = false := by simp [classNotFound, hnfsub, hd]
    have hrs : reviewsStep w id =
        ([.logMiss id 403 "reviews"] ++ cacheEvents w (invalidateReviews id), none) := by
      simp [reviewsStep, hr, hnf, hden]
    simp [IngestHotel, hp, hu, hrs]

def wC9 : World :=
  { getProperty := .error (plainErr "GET /x: 403 Forbidden")
    getReviews := .ok []
    getTranslation := fun _ => .ok []
    upsertPropertyErr := none
    upsertReviewsErr := none
    upsertI18nErr := fun _ => none
    hasCache := true }

/-- concrete instantiation of `C9_substring_classification`: a plain,
untyped error whose message merely contains "403" is swallowed as an
access-denied miss. -/
theorem C9_substring_classification_witness :
    IngestHotel wC9 9 1 =
      ([.logMiss 9 403 "inactive",
        .cacheDel (hotelKey 9 "en"), .cacheDel (hotelKey 9 "fr"),
        .cacheDel (hotelKey 9 "es"), .cacheDel (reviewsKey 9 50),
        .cacheDel (reviewsKey 9 100), .cacheDel (reviewsKey 9 200)], none) :=
  C9_substring_classification.2.1 wC9 9 1 (plainErr "GET /x: 403 Forbidden") rfl rfl
    (by decide) (Or.inr (Or.inl (by decide))) rfl

/-- C10: when no id alias resolves in the property document, the mapped
hotel has id 0 and `IngestHotel` still issues the property upsert for that
record as its first action rather than failing or skipping. -/
theorem C10_unresolved_id_maps_to_zero (w : World) (id : Int) (rc : Nat) (p : Doc)
    (hp : w.getProperty = .ok p)
    (hid : firstInt64Flexible p ["hotel_id", "cupid_id", "id"] = none) :
    (mapProperty p).id = 0 ∧
    (IngestHotel w id rc).1.head? = some (.upsertProperty (mapProperty p)) := by
  constructor
  · simp [mapProperty, hid]
  · cases hu : w.upsertPropertyErr with
    | some e => simp [IngestHotel, hp, hu]
    | none =>
      cases hr : (reviewsStep w id).2 with
      | some e => simp [IngestHotel, hp, hu, hr, cacheEvents]
      | none => simp [IngestHotel, hp, hu, hr, cacheEvents]

def wC10 : World :=
  { getProperty := .ok [("name", .str "No Id Inn")]
    getReviews := .ok []
    getTranslation := fun _ => .ok []
    upsertPropertyErr := none
    upsertReviewsErr := none
    upsertI18nErr := fun _ => none
    hasCache := true }

/-- concrete instantiation of `C10_unresolved_id_maps_to_zero`. -/
theorem C10_unresolved_id_maps_to_zero_witness :
    (mapProperty [("name", .str "No Id Inn")]).id = 0 ∧
    (IngestHotel wC10 4 1).1.head? =
      some (.upsertProperty (mapProperty [("name", .str "No Id Inn")])) :=
  C10_unresolved_id_maps_to_zero wC10 4 1 [("name", .str "No Id Inn")] rfl (by decide)

/-! ### Theorems about the candidate fallback (`getFirst`) -/

/-- a per-candidate outcome classified as "not found" by `errors.Is`. -/
def isNFResult {α : Type} (r : Except ErrVal α) : Prop :=
  ∃ e, r = .error e ∧ e.nfCupid = true

theorem getFirstLoop_ok_of_nf_pre {α : Type} (pre : List (Except ErrVal α)) (v : α)
    (post : List (Except ErrVal α)) (last : Option ErrVal)
    (h : ∀ r ∈ pre, isNFResult r) :
    getFirstLoop (pre ++ .ok v :: post) last = .ok v := by
  induction pre generalizing last with
  | nil => simp [getFirstLoop]
  | cons r rest ih =>
    obtain ⟨e, rfl, hnf⟩ := h r (by simp)
    simp only [List.cons_append, getFirstLoop, hnf, if_true]
    exact ih (some e) fun r' hr' => h r' (by simp [hr'])

theorem getFirstLoop_stops_on_other {α : Type} (pre : List (Except ErrVal α))
    (e : ErrVal) (post : List (Except ErrVal α)) (last : Option ErrVal)
    (h : ∀ r ∈ pre, isNFResult r) (he : e.nfCupid = false) :
    getFirstLoop (pre ++ .error e :: post) last = .error e := by
  induction pre generalizing last with
  | nil => simp [getFirstLoop, he]
  | cons r rest ih =>
    obtain ⟨e', rfl, hnf⟩ := h r (by simp)
    simp only [List.cons_append, getFirstLoop, hnf, if_true]
    exact ih (some e') fun r' hr' => h r' (by simp [hr'])

theorem getFirstLoop_all_nf {α : Type} (rs : List (Except ErrVal α))
    (last : Option ErrVal) (hne : rs ≠ []) (h : ∀ r ∈ rs, isNFResult r) :
    ∃ e, getFirstLoop rs last = .error e ∧ e.nfCupid = true := by
  induction rs generalizing last with
  | nil => exact absurd rfl hne
  | cons r rest ih =>
    obtain ⟨e, rfl, hnf⟩ := h r (by simp)
    simp only [getFirstLoop, hnf, if_true]
    cases rest with
    | nil => exact ⟨e, rfl, hnf⟩
    | cons r' rest' =>
      exact ih (some e) (fun c => by simp at c) (fun r'' hr'' => h r'' (by simp [hr'']))

theorem getFirstLoop_ok_mem {α : Type} (rs : List (Except ErrVal α))
    (last : Option ErrVal) (v : α) (h : getFirstLoop rs last = .ok v) :
    Except.ok v ∈ rs := by
  induction rs generalizing last with
  | nil =>
    cases last <;> simp [getFirstLoop] at h
  | cons r rest ih =>
    cases r with
    | ok w =>
      simp only [getFirstLoop, Except.ok.injEq] at h
      subst h; simp
    | error e =>
      simp only [getFirstLoop] at h
      by_cases hnf : e.nfCupid = true
      · simp only [hnf, if_true] at h
        exact List.mem_cons_of_mem _ (ih (some e) h)
      · simp only [Bool.not_eq_true] at hnf
        simp [hnf] at h

/-- C2: the client tries candidates strictly in order — earlier not-found
outcomes fall through to the next candidate, any other error stops the scan
and is returned, the first success is returned, an all-not-found list
aggregates to a not-found error, and a result can only be a success if some
candidate actually succeeded (an exhausted list yields an error, in the
empty case the guard error). -/
theorem C2_candidates_in_order (α : Type) :
    (∀ (pre : List (Except ErrVal α)) (v : α) (post : List (Except ErrVal α)),
      (∀ r ∈ pre, isNFResult r) → getFirst (pre ++ .ok v :: post) = .ok v) ∧
    (∀ (pre : List (Except ErrVal α)) (e : ErrVal) (post : List (Except ErrVal α)),
      (∀ r ∈ pre, isNFResult r) → e.nfCupid = false →
      getFirst (pre ++ .error e :: post) = .error e) ∧
    (∀ rs : List (Except ErrVal α), rs ≠ [] → (∀ r ∈ rs, isNFResult r) →
      ∃ e, getFirst rs = .error e ∧ e.nfCupid = true) ∧
    (∀ (rs : List (Except ErrVal α)) (v : α), getFirst rs = .ok v → Except.ok v ∈ rs) ∧
    getFirst ([] : List (Except ErrVal α)) =
      .error (plainErr "no candidate URL succeeded") := by
  refine ⟨?_, ?_, ?_, ?_, rfl⟩
  · exact fun pre v post h => getFirstLoop_ok_of_nf_pre pre v post none h
  · exact fun pre e post h he => getFirstLoop_stops_on_other pre e post none h he
  · exact fun rs hne h => getFirstLoop_all_nf rs none hne h
  · exact fun rs v h => getFirstLoop_ok_mem rs none v h

/-- concrete instantiation of `C2_candidates_in_order`: a 404 on the first
candidate falls through to the second's success; a non-404 error on the
first is returned at once. -/
theorem C2_candidates_in_order_witness :
    getFirst [Except.error cupidNotFoundE, Except.ok (7 : Nat)] = .ok 7 ∧
    getFirst [Except.error (plainErr "remote 500"), Except.ok (7 : Nat)] =
      .error (plainErr "remote 500") :=
  ⟨(C2_candidates_in_order Nat).1 [.error cupidNotFoundE] 7 []
      (fun r hr => by
        simp only [List.mem_singleton] at hr
        exact ⟨cupidNotFoundE, hr, rfl⟩),
   (C2_candidates_in_order Nat).2.1 [] (plainErr "remote 500") [.ok 7]
      (fun r hr => by simp at hr) rfl⟩

/-! ### Theorems about the retry loop (`Client.get`) -/

theorem retryableCode_cases {c : Nat} (h : retryableCode c = true) :
    c = 429 ∨ c = 500 ∨ c = 502 ∨ c = 503 ∨ c = 504 := by
  have h' := h
  simp only [retryableCode, Bool.or_eq_true, beq_iff_eq] at h'
  tauto

theorem getLoop_requests_le {α : Type} (att : Nat → AttemptRes α) (l : List Nat)
    (last : Option ErrVal) : (getLoop att l last).1 ≤ l.length := by
  induction l generalizing last with
  | nil => simp [getLoop]
  | cons i rest ih =>
    cases hai : att i with
    | netErr msg ctxErr =>
      cases ctxErr with
      | some ce => simp [getLoop, hai]
      | none =>
        by_cases hi : i < 3
        · have := ih (some (plainErr msg))
          simp only [getLoop, hai, hi, if_true, List.length_cons]
          omega
        · simp [getLoop, hai, hi]
    | status code dec body =>
      simp only [getLoop, hai, List.length_cons]
      split_ifs with h1 h2 h3 h4 h5 h6 h7
      · simp
      · simp
      · simp
      · simp
      · simp
      · have := ih (some (remoteErr code))
        simp only
        omega
      · simp
      · simp

theorem getLoop_step_retry {α : Type} (att : Nat → AttemptRes α) (i : Nat)
    (rest : List Nat) (last : Option ErrVal)
    (h : isRetryAttempt (att i) = true) (hi : i < 3) :
    getLoop att (i :: rest) last =
      ((getLoop att rest (some (errOfRetry (att i)))).1 + 1,
       (getLoop att rest (some (errOfRetry (att i)))).2) := by
  cases hai : att i with
  | netErr msg ctxErr =>
    rw [hai] at h
    have hn : ctxErr = none := by
      simpa [isRetryAttempt, Option.isNone_iff_eq_none] using h
    subst hn
    simp [getLoop, hai, hi, errOfRetry]
  | status code dec body =>
    rw [hai] at h
    have hr : retryableCode code = true := by simpa [isRetryAttempt] using h
    rcases retryableCode_cases hr with rfl | rfl | rfl | rfl | rfl <;>
      simp [getLoop, hai, hi, errOfRetry, retryableCode]

theorem getLoop_step_stop {α : Type} (att : Nat → AttemptRes α) (i : Nat)
    (rest : List Nat) (last : Option ErrVal)
    (h : isRetryAttempt (att i) = false) :
    getLoop att (i :: rest) last = (1, finalOutcome (att i)) := by
  cases hai : att i with
  | netErr msg ctxErr =>
    rw [hai] at h
    cases ctxErr with
    | some ce => simp [getLoop, hai, finalOutcome]
    | none => simp [isRetryAttempt] at h
  | status code dec body =>
    rw [hai] at h
    have hr : retryableCode code = false := by simpa [isRetryAttempt] using h
    simp only [getLoop, hai, finalOutcome]
    split_ifs <;> simp_all

theorem getLoop_step_last {α : Type} (att : Nat → AttemptRes α)
    (rest : List Nat) (last : Option ErrVal)
    (h : isRetryAttempt (att 3) = true) :
    getLoop att (3 :: rest) last = (1, .error (errOfRetry (att 3))) := by
  cases hai : att 3 with
  | netErr msg ctxErr =>
    rw [hai] at h
    have hn : ctxErr = none := by
      simpa [isRetryAttempt, Option.isNone_iff_eq_none] using h
    subst hn
    simp [getLoop, hai, errOfRetry]
  | status code dec body =>
    rw [hai] at h
    have hr : retryableCode code = true := by simpa [isRetryAttempt] using h
    rcases retryableCode_cases hr with rfl | rfl | rfl | rfl | rfl <;>
      simp [getLoop, hai, errOfRetry, retryableCode]

theorem finalOutcome_of_retry {α : Type} (a : AttemptRes α)
    (h : isRetryAttempt a = true) : finalOutcome a = .error (errOfRetry a) := by
  cases a with
  | netErr msg ctxErr =>
    have hn : ctxErr = none := by
      simpa [isRetryAttempt, Option.isNone_iff_eq_none] using h
    subst hn
    simp [finalOutcome, errOfRetry]
  | status code dec body =>
    have hr : retryableCode code = true := by simpa [isRetryAttempt] using h
    rcases retryableCode_cases hr with rfl | rfl | rfl | rfl | rfl <;>
      simp [finalOutcome, errOfRetry, retryableCode]

/-- C3: per URL the client makes at most 4 attempts; an attempt is retried
exactly when it is a network failure with the context still live, a 429, or
a 500/502/503/504 (`isRetryAttempt`), and when the first non-retryable
attempt has index `k` (or retries are exhausted at index 3) the call has
issued exactly `k + 1` requests and returns that attempt's outcome — after
exhaustion that is the last observed error; concretely, two 500s followed
by a 200 succeed with the decoded body after exactly three requests. -/
theorem C3_retry_policy (α : Type) :
    (∀ w : ClientWorld α, (clientGet w).requests ≤ 4) ∧
    (∀ (w : ClientWorld α) (k : Nat), w.limiter = .ok () → k ≤ 3 →
      (∀ j, j < k → isRetryAttempt (w.att j) = true) →
      (isRetryAttempt (w.att k) = false ∨ k = 3) →
      (clientGet w).requests = k + 1 ∧
      (clientGet w).result = finalOutcome (w.att k)) ∧
    (∀ (w : ClientWorld α) (v : α) (d0 d1 : Except ErrVal α) (b0 b1 b2 : String),
      w.limiter = .ok () →
      w.att 0 = .status 500 d0 b0 → w.att 1 = .status 500 d1 b1 →
      w.att 2 = .status 200 (.ok v) b2 →
      (clientGet w).requests = 3 ∧ (clientGet w).result = .ok (some v)) := by
  refine ⟨?_, ?_, ?_⟩
  · intro w
    cases hl : w.limiter with
    | error e => simp [clientGet, hl]
    | ok u =>
      have := getLoop_requests_le w.att [0, 1, 2, 3] none
      simpa [clientGet, hl] using this
  · intro w k hl hk hpre hstop
    cases hl' : w.limiter with
    | error e => rw [hl'] at hl; cases hl
    | ok u =>
      simp only [clientGet, hl']
      have hrun : getLoop w.att [0, 1, 2, 3] none =
          (k + 1, finalOutcome (w.att k)) := by
        have hk4 : k = 0 ∨ k = 1 ∨ k = 2 ∨ k = 3 := by omega
        rcases hk4 with rfl | rfl | rfl | rfl
        · rcases hstop with hs | hs
          · rw [getLoop_step_stop w.att 0 _ none hs]
          · cases hs
        · rcases hstop with hs | hs
          · rw [getLoop_step_retry w.att 0 _ none (hpre 0 (by omega)) (by omega),
              getLoop_step_stop w.att 1 _ _ hs]
          · cases hs
        · rcases hstop with hs | hs
          · rw [getLoop_step_retry w.att 0 _ none (hpre 0 (by omega)) (by omega),
              getLoop_step_retry w.att 1 _ _ (hpre 1 (by omega)) (by omega),
              getLoop_step_stop w.att 2 _ _ hs]
          · cases hs
        · rw [getLoop_step_retry w.att 0 _ none (hpre 0 (by omega)) (by omega),
            getLoop_step_retry w.att 1 _ _ (hpre 1 (by omega)) (by omega),
            getLoop_step_retry w.att 2 _ _ (hpre 2 (by omega)) (by omega)]
          rcases hstop with hs | _
          · rw [getLoop_step_stop w.att 3 _ _ hs]
          · by_cases h3 : isRetryAttempt (w.att 3) = true
            · rw [getLoop_step_last w.att _ _ h3, finalOutcome_of_retry _ h3]
            · rw [getLoop_step_stop w.att 3 _ _ (by simpa using h3)]
      rw [hrun]
      exact ⟨rfl, rfl⟩
  · intro w v d0 d1 b0 b1 b2 hl h0 h1 h2
    cases hl' : w.limiter with
    | error e => rw [hl'] at hl; cases hl
    | ok u =>
      simp only [clientGet, hl']
      have hr0 : isRetryAttempt (w.att 0) = true := by simp [h0, isRetryAttempt, retryableCode]
      have hr1 : isRetryAttempt (w.att 1) = true := by simp [h1, isRetryAttempt, retryableCode]
      have hr2 : isRetryAttempt (w.att 2) = false := by simp [h2, isRetryAttempt, retryableCode]
      rw [getLoop_step_retry w.att 0 _ none hr0 (by omega),
        getLoop_step_retry w.att 1 _ _ hr1 (by omega),
        getLoop_step_stop w.att 2 _ _ hr2]
      simp [h2, finalOutcome, Except.map]

def cwC3 : ClientWorld Nat :=
  { limiter := .ok ()
    att := fun i =>
      if i < 2 then .status 500 (.error (plainErr "should not decode")) ""
      else .status 200 (.ok 42) "" }

/-- concrete instantiation of `C3_retry_policy`: two 500s then a 200 yield
the decoded body with exactly three requests. -/
theorem C3_retry_policy_witness :
    (clientGet cwC3).requests = 3 ∧ (clientGet cwC3).result = .ok (some 42) :=
  (C3_retry_policy Nat).2.2 cwC3 42 (.error (plainErr "should not decode"))
    (.error (plainErr "should not decode")) "" "" "" rfl rfl rfl rfl

/-! ### Rate-limiter wait placement (C4) -/

def cwC4 : ClientWorld Nat :=
  { limiter := .ok ()
    att := fun i =>
      if i = 0 then .status 500 (.error (plainErr "no body")) ""
      else .status 200 (.ok 1) "" }

/-- C4 counterexample: a run with a retried 500 issues two requests but
performs only one rate-limiter wait — the retry attempt is dispatched
without waiting for a token, so not every request waits. -/
theorem C4_every_request_waits_counterexample :
    (clientGet cwC4).requests = 2 ∧ (clientGet cwC4).tokenWaits = 1 ∧
    ¬ (clientGet cwC4).tokenWaits = (clientGet cwC4).requests := by
  refine ⟨?_, rfl, ?_⟩ <;> decide

/-- C4 (amended): `Client.get` performs exactly one rate-limiter wait per
URL call, before the first request attempt — the wait covers all retry
attempts of that URL rather than being repeated per attempt — and the wait
is cancellable: if it returns an error (context cancelled), no request is
dispatched and that error is returned. -/
theorem C4_single_token_wait_per_call (α : Type) (w : ClientWorld α) :
    (clientGet w).tokenWaits = 1 ∧
    (∀ e, w.limiter = .error e →
      (clientGet w).requests = 0 ∧ (clientGet w).result = .error e) := by
  refine ⟨?_, fun e he => ?_⟩
  · cases hl : w.limiter <;> simp [clientGet, hl]
  · simp [clientGet, he]

def cwC4lim : ClientWorld Nat :=
  { limiter := .error (plainErr "context canceled")
    att := fun _ => .status 200 (.ok 0) "" }

/-- concrete instantiation of `C4_single_token_wait_per_call`: a cancelled
limiter wait yields the cancellation error with zero requests. -/
theorem C4_single_token_wait_per_call_witness :
    (clientGet cwC4lim).tokenWaits = 1 ∧ (clientGet cwC4lim).requests = 0 ∧
    (clientGet cwC4lim).result = .error (plainErr "context canceled") :=
  ⟨(C4_single_token_wait_per_call Nat cwC4lim).1,
   ((C4_single_token_wait_per_call Nat cwC4lim).2 (plainErr "context canceled") rfl).1,
   ((C4_single_token_wait_per_call Nat cwC4lim).2 (plainErr "context canceled") rfl).2⟩

/-! ### Natural-id synthesis (C5) -/

/-- C5: when no explicit review identifier alias resolves, the natural id
is the hex digest of the SHA-1 hash of the pipe-joined mapped values
(author, title, text, language, rating formatted to 3 decimal places, each
empty when absent), and mapping the same document twice yields the same
synthesized id. -/
theorem C5_natural_id_synthesis (pid : Int) (d : Doc)
    (h : firstNonEmptyAlias d reviewAliases "source_id" = none) :
    (mapOneReview pid d).sourceID =
      some (sha1Hex (utf8Bytes (reviewSig (mapOneReview pid d).author
        (mapOneReview pid d).title (mapOneReview pid d).text
        (mapOneReview pid d).lang (mapOneReview pid d).rating))) ∧
    ∀ d', d' = d → mapOneReview pid d' = mapOneReview pid d := by
  constructor
  · have hs : (mapOneReview pid d).sourceID =
        (match firstNonEmptyAlias d reviewAliases "source_id" with
         | some s => some s
         | none => some (sha1Hex (utf8Bytes (reviewSig (mapOneReview pid d).author
             (mapOneReview pid d).title (mapOneReview pid d).text
             (mapOneReview pid d).lang (mapOneReview pid d).rating)))) := rfl
    rw [hs, h]
  · intro d' hd
    rw [hd]

def dC5 : Doc := [("author", .str "bob"), ("rating", .num 8)]

/-- concrete instantiation of `C5_natural_id_synthesis`. -/
theorem C5_natural_id_synthesis_witness :
    (mapOneReview 1 dC5).sourceID =
      some (sha1Hex (utf8Bytes (reviewSig (mapOneReview 1 dC5).author
        (mapOneReview 1 dC5).title (mapOneReview 1 dC5).text
        (mapOneReview 1 dC5).lang (mapOneReview 1 dC5).rating))) ∧
    ∀ d', d' = dC5 → mapOneReview 1 d' = mapOneReview 1 dC5 :=
  C5_natural_id_synthesis 1 dC5 (by decide)

/-! ### Address composition fallback (C6) -/

theorem strLength_pos_of_ne (s : String) (h : s ≠ "") : 0 < s.length := by
  cases s with
  | mk data =>
    cases data with
    | nil => exact absurd rfl h
    | cons c cs => simp [String.length]

theorem append_ne_empty_left (s t : String) (h : s ≠ "") : s ++ t ≠ "" := by
  intro hc
  have := congrArg String.length hc
  rw [String.length_append] at this
  have hs := strLength_pos_of_ne s h
  have h0 : ("" : String).length = 0 := rfl
  rw [h0] at this
  omega

theorem joinSep_ne_empty (sep : String) (l : List String) (hl : l ≠ [])
    (h : ∀ s ∈ l, s ≠ "") : joinSep sep l ≠ "" := by
  induction l with
  | nil => exact absurd rfl hl
  | cons s t ih =>
    cases t with
    | nil => simpa [joinSep] using h s (by simp)
    | cons s' t' =>
      show s ++ sep ++ joinSep sep (s' :: t') ≠ ""
      exact append_ne_empty_left _ _
        (append_ne_empty_left _ _ (h s (by simp)))

/-- C6: when no single aliased address field resolves, the mapped address
is the trimmed non-empty component values — `address.`-prefixed components
first, then root-level ones, in the source's fixed order — joined with
", ", skipping empty components; when every component is empty the address
is absent, and a composed address is never the empty string. -/
theorem C6_address_composition (d : Doc)
    (h : firstNonEmptyIn d propAddrSingleAliases = none) :
    (((addressComponents d).map goTrim).filter neStr = [] →
      (mapProperty d).addressRaw = none) ∧
    (((addressComponents d).map goTrim).filter neStr ≠ [] →
      (mapProperty d).addressRaw =
        some (joinSep ", " (((addressComponents d).map goTrim).filter neStr)) ∧
      joinSep ", " (((addressComponents d).map goTrim).filter neStr) ≠ "") := by
  constructor
  · intro hne
    simp [mapProperty, h, composeAddress, hne]
  · intro hne
    refine ⟨by simp [mapProperty, h, composeAddress, hne], ?_⟩
    refine joinSep_ne_empty ", " _ hne fun s hs => ?_
    have := List.of_mem_filter hs
    simpa [neStr, bne_iff_ne] using this

def dC6 : Doc := [("city", .str "Istanbul"), ("country", .str "TR")]

/-- concrete instantiation of `C6_address_composition`: only city and
country populated composes to "Istanbul, TR". -/
theorem C6_address_composition_witness :
    (mapProperty dC6).addressRaw = some "Istanbul, TR" := by
  have h := (C6_address_composition dC6 (by decide)).2 (by decide)
  exact h.1.trans (by decide)

/-! ### Review text fallback (C7) -/

def dC7bad : Doc := [("cons", .str "noisy")]

/-- C7 counterexample: with an empty "pros" field and cons "noisy" the
mapped text is "Pros:\nCons: noisy" — the line with the empty source field
is not omitted (the claim's reading would give "Cons: noisy"). -/
theorem C7_omit_empty_line_counterexample :
    (mapOneReview 1 dC7bad).text = some "Pros:\nCons: noisy" ∧
    ¬ (mapOneReview 1 dC7bad).text = some "Cons: noisy" := by
  constructor <;> decide

theorem trimChars_ne_nil_of_head (c : Char) (cs : List Char)
    (hc : asciiWs c = false) : trimChars (c :: cs) ≠ [] := by
  unfold trimChars
  rw [List.dropWhile_cons, hc]
  simp only [Bool.false_eq_true, if_false]
  intro hcon
  have h0 : (c :: cs).reverse.dropWhile asciiWs = [] := by
    cases hdw : (c :: cs).reverse.dropWhile asciiWs with
    | nil => rfl
    | cons x xs => rw [hdw] at hcon; simp at hcon
  rw [List.dropWhile_eq_nil_iff] at h0
  have := h0 c (by simp)
  rw [hc] at this
  cases this

theorem trimChars_head (c : Char) (cs : List Char) (hc : asciiWs c = false) :
    ∃ ds, trimChars (c :: cs) = c :: ds := by
  have hpre : trimChars (c :: cs) <+: c :: cs := by
    unfold trimChars
    rw [List.dropWhile_cons, hc]
    simp only [Bool.false_eq_true, if_false]
    have := List.dropWhile_suffix (l := (c :: cs).reverse) asciiWs
    have h2 := List.reverse_prefix.mpr this
    simpa using h2
  have hne := trimChars_ne_nil_of_head c cs hc
  obtain ⟨t, ht⟩ := hpre
  cases htc : trimChars (c :: cs) with
  | nil => exact absurd htc hne
  | cons x xs =>
    rw [htc] at ht
    simp only [List.cons_append, List.cons.injEq] at ht
    obtain ⟨hx, -⟩ := ht
    subst hx
    exact ⟨xs, rfl⟩

theorem goTrim_pros_ne (s : String) : goTrim ("Pros: " ++ s) ≠ "" := by
  intro hc
  have hdata : ("Pros: " ++ s).data = 'P' :: ("ros: ".data ++ s.data) := by
    rw [String.data_append]
    rfl
  have := congrArg String.data hc
  simp only [goTrim, hdata] at this
  exact trimChars_ne_nil_of_head 'P' _ (by decide) this

theorem goTrim_pros_head (s : String) :
    ∃ ds, (goTrim ("Pros: " ++ s)).data = 'P' :: ds := by
  have hdata : ("Pros: " ++ s).data = 'P' :: ("ros: ".data ++ s.data) := by
    rw [String.data_append]
    rfl
  obtain ⟨ds, hds⟩ := trimChars_head 'P' ("ros: ".data ++ s.data) (by decide)
  exact ⟨ds, by simp only [goTrim, hdata, hds]⟩

/-- C7 (amended): when no body-text alias resolves and at least one of the
"pros"/"cons" fields is non-empty, the text is
`TrimSpace(TrimSpace("Pros: " + pros) + "\n" + TrimSpace("Cons: " + cons))`
— a line whose source field is empty is kept as its bare label rather than
omitted; when both fields are empty the text is absent. -/
theorem C7_text_fallback_amended (pid : Int) (d : Doc)
    (h : firstNonEmptyAlias d reviewAliases "text" = none) :
    (lookupStr d "pros" = "" ∧ lookupStr d "cons" = "" →
      (mapOneReview pid d).text = none) ∧
    (¬ (lookupStr d "pros" = "" ∧ lookupStr d "cons" = "") →
      (mapOneReview pid d).text =
        some (goTrim (goTrim ("Pros: " ++ lookupStr d "pros") ++ "\n" ++
          goTrim ("Cons: " ++ lookupStr d "cons")))) := by
  have htext : (mapOneReview pid d).text = reviewText d := rfl
  constructor
  · intro ⟨hp, hcn⟩
    rw [htext]
    simp [reviewText, h, hp, hcn]
  · intro hne
    rw [htext]
    have hor : lookupStr d "pros" ≠ "" ∨ lookupStr d "cons" ≠ "" := by tauto
    have hjoined :
        goTrim (goTrim ("Pros: " ++ lookupStr d "pros") ++ "\n" ++
          goTrim ("Cons: " ++ lookupStr d "cons")) ≠ "" := by
      intro hc
      obtain ⟨ds, hds⟩ := goTrim_pros_head (lookupStr d "pros")
      have hdata : (goTrim ("Pros: " ++ lookupStr d "pros") ++ "\n" ++
          goTrim ("Cons: " ++ lookupStr d "cons")).data = 'P' :: (ds ++ "\n".data ++
            (goTrim ("Cons: " ++ lookupStr d "cons")).data) := by
        rw [String.data_append, String.data_append, hds]
        simp
      have := congrArg String.data hc
      rw [goTrim, hdata] at this
      exact trimChars_ne_nil_of_head 'P' _ (by decide) this
    rw [reviewText, h]
    simp only [hor, if_pos, joinSep, hjoined]
    simp [hor, hjoined, joinSep]

def dC7 : Doc := [("pros", .str "clean"), ("cons", .str "noisy")]

/-- concrete instantiation of `C7_text_fallback_amended`. -/
theorem C7_text_fallback_amended_witness :
    (mapOneReview 2 dC7).text = some "Pros: clean\nCons: noisy" := by
  have h := (C7_text_fallback_amended 2 dC7 (by decide)).2 (by decide)
  exact h.trans (by decide)

end CupidHotel
